import Mathlib

/-!
Shallow embedding of the `switchhub` finite-state-machine engine (v1.0.0):
the transition registry (`transition-set.ts`, `transition-matcher.ts`), the
transition selector (`transitioner.ts`), the bounded history stack and the
notifying facade (`state-machine.ts`), together with proofs about matching,
guard evaluation, undo/redo and the history cap.

Conventions: TypeScript optional fields become `Option`; `undefined`/`null`
are `none`; string keys (`Key`) become `String`; throwing methods return
`Except String`; the observer registry is modelled by the ordered list of
broadcast payloads (`notified`), each broadcast reaching every subscriber.
-/

namespace SwitchHub

/-- Opaque caller-supplied payload data (`data?: any` in the source); modelled
as strings, since the engine only stores and forwards it. -/
abbrev Data := String

/-- The value returned by a guard (`condition?: () => boolean`), as far as the
engine inspects it: the source only tests `transition.condition() !== false`,
so a guard result is classified by strict equality with `false`. -/
inductive GuardVal where
  | jsFalse
  | jsTrue
  | jsUndefined
  | jsOther
deriving DecidableEq

/-- `Transition` interface (`transition.ts`): `from`/`to` are required,
`event`, `condition` and `undoable` are optional.  An absent `undoable` and
`undoable: false` behave identically (`!transition.undoable`), so the flag is
a `Bool` defaulting to `false`.  A guard is represented by the value it
currently returns. -/
structure Transition where
  event : Option String := none
  from_ : String
  to_ : String
  condition : Option GuardVal := none
  undoable : Bool := false
deriving DecidableEq

/-- `TransitionPredicate` interface (`transition-predicate.ts`): any subset of
the fields `event`, `from`, `to`. -/
structure TransitionPredicate where
  event : Option String := none
  from_ : Option String := none
  to_ : Option String := none
deriving DecidableEq

/-- `matchTransition` (`transition-matcher.ts`, revision with the 0.2.1 fix
per the changelog entry about checking the filter condition for
`undefined`): a predicate field that is `undefined`/`null` is a wildcard,
any defined field must be strictly equal. -/
def matchTransition (transition : Transition) (predicate : TransitionPredicate) : Bool :=
  (match predicate.event with
   | none => true
   | some v => transition.event == some v) &&
  (match predicate.from_ with
   | none => true
   | some v => transition.from_ == v) &&
  (match predicate.to_ with
   | none => true
   | some v => transition.to_ == v)

/-- When `addTransition`/`removeTransition` receive a `Transition` where a
predicate is expected, only its `event`/`from`/`to` fields are consulted. -/
def Transition.toPredicate (t : Transition) : TransitionPredicate :=
  { event := t.event, from_ := some t.from_, to_ := some t.to_ }

/-- `Event` interface (`event.ts`): a named bundle of transitions. -/
structure Event where
  name : String
  transitions : List Transition
deriving DecidableEq

/-- `TransitionSet.filterTransitions`. -/
def TransitionSet.filterTransitions (ts : List Transition) (predicate : TransitionPredicate) : List Transition :=
  ts.filter (fun t => matchTransition t predicate)

/-- `TransitionSet.hasTransition`: the filtered list is non-empty. -/
def TransitionSet.hasTransition (ts : List Transition) (predicate : TransitionPredicate) : Bool :=
  !(TransitionSet.filterTransitions ts predicate).isEmpty

/-- `TransitionSet.hasEvent`. -/
def TransitionSet.hasEvent (ts : List Transition) (eventName : String) : Bool :=
  TransitionSet.hasTransition ts { event := some eventName }

/-- `TransitionSet.removeTransition`: `findIndex` + `splice`, i.e. remove the
first stored transition matching the predicate, no-op when none matches. -/
def TransitionSet.removeTransition : List Transition → TransitionPredicate → List Transition
  | [], _ => []
  | t :: rest, predicate =>
    if matchTransition t predicate then rest
    else t :: TransitionSet.removeTransition rest predicate

/-- `TransitionSet.addTransition`: replace-on-conflict (remove the first
stored transition matching the new one's defined fields), then push. -/
def TransitionSet.addTransition (ts : List Transition) (t : Transition) : List Transition :=
  (if TransitionSet.hasTransition ts t.toPredicate then TransitionSet.removeTransition ts t.toPredicate else ts) ++ [t]

/-- `TransitionSet.addEvent`: an event with zero transitions is invalid;
otherwise each of its transitions is added tagged with the event name. -/
def TransitionSet.addEvent (ts : List Transition) (e : Event) : Except String (List Transition) :=
  if e.transitions.isEmpty then
    Except.error "Event must have at least one transition"
  else
    Except.ok (e.transitions.foldl
      (fun acc t => TransitionSet.addTransition acc { t with event := some e.name }) ts)

/-- `TransitionSet.removeEvent`: remove every transition whose `event` equals
the given name. -/
def TransitionSet.removeEvent (ts : List Transition) (eventName : String) : List Transition :=
  ts.filter (fun t => t.event != some eventName)

/-- Whether a guard currently passes: `transition.condition() !== false`
(absent guards pass). -/
def Transition.isExecutable (t : Transition) : Bool :=
  match t.condition with
  | none => true
  | some v => v != GuardVal.jsFalse

/-- Modelled from the spec: `TransitionSet.filterExecutableTransitions`, the
registry query used by the transitioner, is absent from the sources (only its
call sites remain).  Following the spec, `findExecutable` filters the registry
by predicate and keeps candidates whose guard is absent or returns a value not
strictly equal to `false`. -/
def filterExecutableTransitions (ts : List Transition) (predicate : TransitionPredicate) : List Transition :=
  (TransitionSet.filterTransitions ts predicate).filter Transition.isExecutable

/-- `TransitionRecord`: a logged visited state plus the event/data that
produced it. -/
structure TransitionRecord where
  state : String
  event : Option String := none
  data : Option Data := none
deriving DecidableEq

/-- History cap (spec: `length(stack) <= limit`, default 50). -/
def historyLimit : Nat := 50

/-- Modelled from the spec: `TransitionHistory` (`transition-history.ts`) is
absent from the sources (only its callers and tests remain).  Following the
spec, it is a capped most-recent-first stack of records plus a cursor, with
index 0 the current record. -/
structure TransitionHistory where
  stack : List TransitionRecord
  index : Nat
deriving DecidableEq

/-- Modelled from the spec: the history is seeded with one record (the
initial state) at construction. -/
def TransitionHistory.init (initialState : String) : TransitionHistory :=
  { stack := [{ state := initialState }], index := 0 }

/-- Modelled from the spec: the current record sits at the cursor. -/
def TransitionHistory.getCurrentRecord (h : TransitionHistory) : TransitionRecord :=
  h.stack.getD h.index { state := "" }

/-- Modelled from the spec: the previous record sits at `cursor + 1`. -/
def TransitionHistory.getPreviousRecord (h : TransitionHistory) : Option TransitionRecord :=
  h.stack.get? (h.index + 1)

/-- Modelled from the spec: the next (redo) record sits at `cursor - 1`, or
none when the cursor is already at 0. -/
def TransitionHistory.getNextRecord (h : TransitionHistory) : Option TransitionRecord :=
  if h.index = 0 then none else h.stack.get? (h.index - 1)

/-- Modelled from the spec: rewinding moves the cursor toward older entries,
clamped to `length - 1`. -/
def TransitionHistory.rewindHistory (h : TransitionHistory) : TransitionHistory :=
  { h with index := min (h.index + 1) (h.stack.length - 1) }

/-- Modelled from the spec: advancing moves the cursor toward 0, clamped
at 0. -/
def TransitionHistory.forwardHistory (h : TransitionHistory) : TransitionHistory :=
  { h with index := h.index - 1 }

/-- Modelled from the spec: committing a new record discards every record
between the old cursor and the front (the redo branch), inserts the new
record at the front, resets the cursor to 0, and evicts the oldest (last)
entries beyond the cap. -/
def TransitionHistory.addRecord (h : TransitionHistory) (r : TransitionRecord) : TransitionHistory :=
  { stack := (r :: h.stack.drop h.index).take historyLimit, index := 0 }

/-- A sequence of committed moves, record by record (each successful move
performs exactly one `addRecord`). -/
def TransitionHistory.addRecords (h : TransitionHistory) (rs : List TransitionRecord) : TransitionHistory :=
  rs.foldl TransitionHistory.addRecord h

/-- `SubscriberPayload` interface: a `none` field stands for a key stripped by
`omitNil` before delivery. -/
structure SubscriberPayload where
  data : Option Data := none
  event : Option String := none
  from_ : String
  to_ : String
  undo : Option Bool := none
  redo : Option Bool := none
deriving DecidableEq

/-- `Transitioner.findExecutableTransition`: first executable transition for a
`from`/`to` pair. -/
def findExecutableTransition (ts : List Transition) (toState fromState : String) : Option Transition :=
  (filterExecutableTransitions ts { from_ := some fromState, to_ := some toState }).head?

/-- `Transitioner.findExecutableTransitionByEvent`: first executable transition
for an `event`/`from` pair. -/
def findExecutableTransitionByEvent (ts : List Transition) (event fromState : String) : Option Transition :=
  (filterExecutableTransitions ts { event := some event, from_ := some fromState }).head?

/-- `Transitioner.canTransition`. -/
def canTransition (ts : List Transition) (toState fromState : String) : Bool :=
  (findExecutableTransition ts toState fromState).isSome

/-- `Transitioner.getTransitionForUndo`: requires a previous record, looks the
transition up forward (`from` = previous state, `to` = current state) and
requires it to be `undoable`. -/
def getTransitionForUndo (ts : List Transition) (h : TransitionHistory) : Option Transition :=
  match h.getPreviousRecord with
  | none => none
  | some prev =>
    match findExecutableTransition ts h.getCurrentRecord.state prev.state with
    | none => none
    | some t => if t.undoable then some t else none

/-- `Transitioner.getTransitionForRedo`. -/
def getTransitionForRedo (ts : List Transition) (h : TransitionHistory) : Option Transition :=
  match h.getNextRecord with
  | none => none
  | some next =>
    match findExecutableTransition ts next.state h.getCurrentRecord.state with
    | none => none
    | some t => if t.undoable then some t else none

/-- `Transitioner.transition`: throws when no stored transition has the given
`from` as its `from` or none has the given `to` as its `to`; otherwise commits
the first executable candidate (if any) to the history and reports the
committed pair, or silently does nothing. -/
def Transitioner.transition (ts : List Transition) (h : TransitionHistory)
    (toState fromState : String) (data : Option Data) :
    Except String (TransitionHistory × Option SubscriberPayload) :=
  if !TransitionSet.hasTransition ts { from_ := some fromState } || !TransitionSet.hasTransition ts { to_ := some toState } then
    Except.error ("Unable to transition from " ++ fromState ++ " to " ++ toState)
  else
    match findExecutableTransition ts toState fromState with
    | some t =>
      Except.ok (h.addRecord { state := t.to_, data := data },
        some { from_ := t.from_, to_ := t.to_ })
    | none => Except.ok (h, none)

/-- `Transitioner.triggerEvent`: throws when the event is unknown or the
`from` state has no outgoing transition; otherwise commits the first
executable candidate for the event (if any). -/
def Transitioner.triggerEvent (ts : List Transition) (h : TransitionHistory)
    (event fromState : String) (data : Option Data) :
    Except String (TransitionHistory × Option SubscriberPayload) :=
  if !TransitionSet.hasEvent ts event || !TransitionSet.hasTransition ts { from_ := some fromState } then
    Except.error ("Unable to trigger " ++ event ++ " and transition from " ++ fromState)
  else
    match findExecutableTransitionByEvent ts event fromState with
    | some t =>
      Except.ok (h.addRecord { state := t.to_, event := some event, data := data },
        some { event := t.event, from_ := t.from_, to_ := t.to_ })
    | none => Except.ok (h, none)

/-- `Transitioner.undoTransition`: when an undoable transition and a previous
record exist, rewind the cursor and report
`(data: previousRecord.data, event, from: transition.to, to: transition.from)`;
otherwise a silent no-op. -/
def Transitioner.undoTransition (ts : List Transition) (h : TransitionHistory) :
    TransitionHistory × Option SubscriberPayload :=
  match getTransitionForUndo ts h, h.getPreviousRecord with
  | some t, some record =>
    (h.rewindHistory,
      some { data := record.data, event := t.event, from_ := t.to_, to_ := t.from_ })
  | _, _ => (h, none)

/-- `Transitioner.redoTransition`: symmetric to undo, advancing the cursor. -/
def Transitioner.redoTransition (ts : List Transition) (h : TransitionHistory) :
    TransitionHistory × Option SubscriberPayload :=
  match getTransitionForRedo ts h, h.getNextRecord with
  | some t, some record =>
    (h.forwardHistory,
      some { data := record.data, event := t.event, from_ := t.from_, to_ := t.to_ })
  | _, _ => (h, none)

/-- `StateMachine` facade: transition registry, history, and the sequence of
broadcast subscriber payloads (each broadcast reaching every registered
subscriber, oldest first). -/
structure StateMachine where
  transitions : List Transition
  history : TransitionHistory
  notified : List SubscriberPayload
deriving DecidableEq

/-- `StateMachine.create`. -/
def StateMachine.create (initialState : String) : StateMachine :=
  { transitions := [], history := TransitionHistory.init initialState, notified := [] }

/-- `StateMachine.getState`: the state of the current history record. -/
def StateMachine.getState (m : StateMachine) : String :=
  m.history.getCurrentRecord.state

/-- `StateMachine.getPreviousState`. -/
def StateMachine.getPreviousState (m : StateMachine) : Option String :=
  m.history.getPreviousRecord.map TransitionRecord.state

/-- `StateMachine.getHistory`: the cursor and the stack. -/
def StateMachine.getHistory (m : StateMachine) : Nat × List TransitionRecord :=
  (m.history.index, m.history.stack)

/-- `StateMachine.addEvent`. -/
def StateMachine.addEvent (m : StateMachine) (name : String) (transitions : List Transition) :
    Except String StateMachine :=
  match TransitionSet.addEvent m.transitions { name := name, transitions := transitions } with
  | Except.error e => Except.error e
  | Except.ok ts => Except.ok { m with transitions := ts }

/-- `StateMachine.addTransition`. -/
def StateMachine.addTransition (m : StateMachine) (t : Transition) : StateMachine :=
  { m with transitions := TransitionSet.addTransition m.transitions t }

/-- `StateMachine.removeTransition`. -/
def StateMachine.removeTransition (m : StateMachine) (t : Transition) : StateMachine :=
  { m with transitions := TransitionSet.removeTransition m.transitions t.toPredicate }

/-- `StateMachine.removeEvent`. -/
def StateMachine.removeEvent (m : StateMachine) (name : String) : StateMachine :=
  { m with transitions := TransitionSet.removeEvent m.transitions name }

/-- `StateMachine.hasEvent`. -/
def StateMachine.hasEvent (m : StateMachine) (name : String) : Bool :=
  TransitionSet.hasEvent m.transitions name

/-- `StateMachine.canUndo`. -/
def StateMachine.canUndo (m : StateMachine) : Bool :=
  (getTransitionForUndo m.transitions m.history).isSome

/-- `StateMachine.canRedo`. -/
def StateMachine.canRedo (m : StateMachine) : Bool :=
  (getTransitionForRedo m.transitions m.history).isSome

/-- `StateMachine.transition`: route through the transitioner; on a committed
move broadcast `(data, from, to)`. -/
def StateMachine.transition (m : StateMachine) (state : String) (data : Option Data) :
    Except String StateMachine :=
  match Transitioner.transition m.transitions m.history state m.getState data with
  | Except.error e => Except.error e
  | Except.ok (h, none) => Except.ok { m with history := h }
  | Except.ok (h, some p) =>
    Except.ok { m with
      history := h
      notified := m.notified ++ [{ data := data, from_ := p.from_, to_ := p.to_ }] }

/-- `StateMachine.triggerEvent`: route through the transitioner; on a
committed move broadcast `(data, event, from, to)`. -/
def StateMachine.triggerEvent (m : StateMachine) (event : String) (data : Option Data) :
    Except String StateMachine :=
  match Transitioner.triggerEvent m.transitions m.history event m.getState data with
  | Except.error e => Except.error e
  | Except.ok (h, none) => Except.ok { m with history := h }
  | Except.ok (h, some p) =>
    Except.ok { m with
      history := h
      notified := m.notified ++
        [{ data := data, event := some event, from_ := p.from_, to_ := p.to_ }] }

/-- `StateMachine.undoTransition`: on a permitted undo broadcast the
transitioner payload extended with `undo: true`. -/
def StateMachine.undoTransition (m : StateMachine) : StateMachine :=
  match Transitioner.undoTransition m.transitions m.history with
  | (h, some p) =>
    { m with
      history := h
      notified := m.notified ++
        [{ data := p.data, event := p.event, from_ := p.from_, to_ := p.to_, undo := some true }] }
  | (h, none) => { m with history := h }

/-- `StateMachine.redoTransition`: on a permitted redo broadcast the
transitioner payload extended with `redo: true`. -/
def StateMachine.redoTransition (m : StateMachine) : StateMachine :=
  match Transitioner.redoTransition m.transitions m.history with
  | (h, some p) =>
    { m with
      history := h
      notified := m.notified ++
        [{ data := p.data, event := p.event, from_ := p.from_, to_ := p.to_, redo := some true }] }
  | (h, none) => { m with history := h }

/-! ### Helper lemmas -/

theorem matchTransition_eq_true (t : Transition) (p : TransitionPredicate) :
    matchTransition t p = true ↔
      (∀ v, p.event = some v → t.event = some v) ∧
      (∀ v, p.from_ = some v → t.from_ = v) ∧
      (∀ v, p.to_ = some v → t.to_ = v) := by
  obtain ⟨pe, pf, pt⟩ := p
  simp only [matchTransition, Bool.and_eq_true]
  cases pe <;> cases pf <;> cases pt <;> simp [beq_iff_eq, and_assoc]

theorem isExecutable_eq_true (t : Transition) :
    t.isExecutable = true ↔
      (t.condition = none ∨ ∃ v, t.condition = some v ∧ v ≠ GuardVal.jsFalse) := by
  cases hc : t.condition <;> simp [Transition.isExecutable, hc, bne_iff_ne]

theorem hasTransition_eq_true (ts : List Transition) (p : TransitionPredicate) :
    TransitionSet.hasTransition ts p = true ↔ ∃ t ∈ ts, matchTransition t p = true := by
  induction ts with
  | nil => simp [TransitionSet.hasTransition, TransitionSet.filterTransitions]
  | cons t rest ih =>
    simp only [TransitionSet.hasTransition, TransitionSet.filterTransitions,
      List.filter_cons] at ih ⊢
    cases hm : matchTransition t p <;> simp [hm, ih, List.mem_cons]

theorem matchTransition_toPredicate_self (t : Transition) :
    matchTransition t t.toPredicate = true := by
  cases he : t.event <;> simp [matchTransition, Transition.toPredicate, he]

theorem findExecutableTransition_eq_some (ts : List Transition) (toState fromState : String)
    (t : Transition) (hf : findExecutableTransition ts toState fromState = some t) :
    t ∈ ts ∧ t.from_ = fromState ∧ t.to_ = toState ∧ t.isExecutable = true := by
  unfold findExecutableTransition at hf
  have hmem : t ∈ filterExecutableTransitions ts ⟨none, some fromState, some toState⟩ :=
    List.mem_of_mem_head? (Option.mem_def.mpr hf)
  unfold filterExecutableTransitions at hmem
  obtain ⟨hmem2, hexec⟩ := List.mem_filter.mp hmem
  unfold TransitionSet.filterTransitions at hmem2
  obtain ⟨hmem3, hmatch⟩ := List.mem_filter.mp hmem2
  obtain ⟨-, hfr, hto⟩ := (matchTransition_eq_true t _).mp hmatch
  exact ⟨hmem3, hfr fromState rfl, hto toState rfl, hexec⟩

theorem findExecutableTransition_isSome_iff (ts : List Transition) (toState fromState : String) :
    (findExecutableTransition ts toState fromState).isSome = true ↔
      ∃ t ∈ ts, t.from_ = fromState ∧ t.to_ = toState ∧ t.isExecutable = true := by
  constructor
  · intro h
    obtain ⟨t, ht⟩ := Option.isSome_iff_exists.mp h
    obtain ⟨hmem, hfr, hto, hex⟩ := findExecutableTransition_eq_some ts toState fromState t ht
    exact ⟨t, hmem, hfr, hto, hex⟩
  · rintro ⟨t, hmem, hfr, hto, hex⟩
    have hin : t ∈ filterExecutableTransitions ts ⟨none, some fromState, some toState⟩ := by
      unfold filterExecutableTransitions TransitionSet.filterTransitions
      refine List.mem_filter.mpr ⟨List.mem_filter.mpr ⟨hmem, ?_⟩, hex⟩
      refine (matchTransition_eq_true t _).mpr ⟨?_, ?_, ?_⟩ <;> intro v hv <;> simp_all
    unfold findExecutableTransition
    cases hl : filterExecutableTransitions ts ⟨none, some fromState, some toState⟩ with
    | nil => rw [hl] at hin; simp at hin
    | cons a l => simp

theorem getCurrentRecord_addRecord (h : TransitionHistory) (r : TransitionRecord) :
    (h.addRecord r).getCurrentRecord = r := rfl

theorem rewindHistory_index_of_previous (h : TransitionHistory) (prev : TransitionRecord)
    (hp : h.getPreviousRecord = some prev) :
    h.rewindHistory.index = h.index + 1 := by
  unfold TransitionHistory.getPreviousRecord at hp
  have hlt : h.index + 1 < h.stack.length := by
    by_contra hle
    rw [List.get?_eq_none.mpr (Nat.le_of_not_lt hle)] at hp
    exact Option.noConfusion hp
  unfold TransitionHistory.rewindHistory
  exact min_eq_left (Nat.le_sub_one_of_lt hlt)

theorem hasTransition_removeTransition (ts : List Transition) (p : TransitionPredicate)
    (hle : (TransitionSet.filterTransitions ts p).length ≤ 1) :
    TransitionSet.hasTransition (TransitionSet.removeTransition ts p) p = false := by
  induction ts with
  | nil => rfl
  | cons t rest ih =>
    cases hm : matchTransition t p
    · have hrem : TransitionSet.removeTransition (t :: rest) p
          = t :: TransitionSet.removeTransition rest p := by
        simp [TransitionSet.removeTransition, hm]
      have h1 : TransitionSet.filterTransitions (t :: rest) p
          = TransitionSet.filterTransitions rest p := by
        simp [TransitionSet.filterTransitions, List.filter_cons, hm]
      rw [h1] at hle
      have := ih hle
      rw [hrem]
      simp only [TransitionSet.hasTransition, TransitionSet.filterTransitions,
        List.filter_cons, hm] at this ⊢
      simpa using this
    · have hrem : TransitionSet.removeTransition (t :: rest) p = rest := by
        simp [TransitionSet.removeTransition, hm]
      have h1 : TransitionSet.filterTransitions (t :: rest) p
          = t :: TransitionSet.filterTransitions rest p := by
        simp [TransitionSet.filterTransitions, List.filter_cons, hm]
      rw [h1, List.length_cons] at hle
      have hnil : TransitionSet.filterTransitions rest p = [] :=
        List.length_eq_zero.mp (Nat.le_zero.mp (Nat.succ_le_succ_iff.mp hle))
      rw [hrem]
      simp [TransitionSet.hasTransition, hnil]

theorem take_append_take (A B : List TransitionRecord) (n : Nat) :
    (A ++ B.take n).take n = (A ++ B).take n := by
  rw [List.take_append_eq_append_take, List.take_append_eq_append_take, List.take_take,
    Nat.min_eq_left (Nat.sub_le n A.length)]

theorem addRecords_stack (rs : List TransitionRecord) :
    ∀ h : TransitionHistory, h.index = 0 → h.stack.length ≤ historyLimit →
      (h.addRecords rs).stack = (rs.reverse ++ h.stack).take historyLimit ∧
      (h.addRecords rs).index = 0 := by
  induction rs with
  | nil =>
    intro h hidx hlen
    refine ⟨?_, hidx⟩
    simp [TransitionHistory.addRecords, List.take_of_length_le hlen]
  | cons r rest ih =>
    intro h hidx hlen
    have h1 : (h.addRecord r).stack = (r :: h.stack).take historyLimit := by
      simp [TransitionHistory.addRecord, hidx]
    have h3 : (h.addRecord r).stack.length ≤ historyLimit := by
      rw [h1, List.length_take]
      exact Nat.min_le_left _ _
    obtain ⟨hs, hi⟩ := ih (h.addRecord r) rfl h3
    have hstep : (h.addRecords (r :: rest)) = ((h.addRecord r).addRecords rest) := rfl
    rw [hstep, hs, h1, take_append_take]
    refine ⟨?_, hi⟩
    simp [List.reverse_cons, List.append_assoc]

/-! ### Concrete instances used by witnesses and counterexamples -/

def c9Stored : List Transition :=
  [{ event := some "e1", from_ := "a", to_ := "b" },
   { event := some "e2", from_ := "a", to_ := "b" }]

def c9Removed : Transition := { from_ := "a", to_ := "b" }

def c10Transition : Transition :=
  { event := some "ignite", from_ := "parked", to_ := "idling" }

/-! ### Claims about the transition registry -/

/-- C1: a stored transition matches a predicate iff, for every field among
`event`, `from`, `to` that the predicate explicitly defines, the transition's
corresponding field is equal to it; omitted or `undefined` predicate fields are
wildcards.  The test is on definedness, not truthiness: a defined falsy value
(such as the empty string) still requires equality. -/
theorem matchTransition_definedness (t : Transition) (p : TransitionPredicate) :
    matchTransition t p = true ↔
      (∀ v, p.event = some v → t.event = some v) ∧
      (∀ v, p.from_ = some v → t.from_ = v) ∧
      (∀ v, p.to_ = some v → t.to_ = v) :=
  matchTransition_eq_true t p

/-- Witness for C1: a predicate whose `from` field is defined as the (falsy)
empty string does not match a transition with a different `from` — the field
is not treated as a wildcard. -/
theorem matchTransition_definedness_witness :
    matchTransition { from_ := "a", to_ := "b" } { from_ := some "" } = false :=
  Bool.eq_false_iff.mpr (fun htrue =>
    absurd (((matchTransition_definedness { from_ := "a", to_ := "b" }
      { from_ := some "" }).mp htrue).2.1 "" rfl) (by decide))

/-- C8: registering an event with an empty transition list always fails with
`InvalidEventError`, both at the registry and at the facade, and the registry
is unchanged by the failed call (no new registry value is produced). -/
theorem addEvent_empty_fails (ts : List Transition) (m : StateMachine) (name : String) :
    TransitionSet.addEvent ts { name := name, transitions := [] }
        = Except.error "Event must have at least one transition" ∧
    m.addEvent name [] = Except.error "Event must have at least one transition" :=
  ⟨rfl, rfl⟩

/-- C9 counterexample: with two stored transitions both matching the
predicate of `t` (a registry reachable by two `addTransition` calls),
`remove(t)` removes only the first match, so `has(t)` is still true
afterwards — refuting the claim that remove-then-has always returns false. -/
theorem removeTransition_hasTransition_counterexample :
    TransitionSet.addTransition
        (TransitionSet.addTransition [] { event := some "e1", from_ := "a", to_ := "b" })
        { event := some "e2", from_ := "a", to_ := "b" } = c9Stored ∧
    TransitionSet.hasTransition
        (TransitionSet.removeTransition c9Stored c9Removed.toPredicate)
        c9Removed.toPredicate = true :=
  ⟨rfl, rfl⟩

/-- C9 (amended): after `add(t)`, `has(t)` returns true; after `remove(t)`,
`has(t)` returns false provided at most one stored transition matched `t`'s
predicate (remove only deletes the first match). -/
theorem addTransition_has_removeTransition_has (ts : List Transition) (t : Transition) :
    TransitionSet.hasTransition (TransitionSet.addTransition ts t) t.toPredicate = true ∧
    ((TransitionSet.filterTransitions ts t.toPredicate).length ≤ 1 →
      TransitionSet.hasTransition (TransitionSet.removeTransition ts t.toPredicate)
        t.toPredicate = false) := by
  constructor
  · refine (hasTransition_eq_true _ _).mpr ⟨t, ?_, matchTransition_toPredicate_self t⟩
    unfold TransitionSet.addTransition
    exact List.mem_append.mpr (Or.inr (List.mem_singleton.mpr rfl))
  · exact hasTransition_removeTransition ts t.toPredicate

/-- Witness for C9 (amended) at the empty registry. -/
theorem addTransition_has_removeTransition_has_witness :
    (TransitionSet.filterTransitions [] c9Removed.toPredicate).length ≤ 1 ∧
    TransitionSet.hasTransition (TransitionSet.addTransition [] c9Removed)
      c9Removed.toPredicate = true ∧
    TransitionSet.hasTransition (TransitionSet.removeTransition [] c9Removed.toPredicate)
      c9Removed.toPredicate = false :=
  ⟨by decide, (addTransition_has_removeTransition_has [] c9Removed).1,
    (addTransition_has_removeTransition_has [] c9Removed).2 (by decide)⟩

/-- C10: for every non-empty event name, `hasEvent` returns true iff at least
one currently stored transition's `event` field equals it; events have no
existence apart from their transitions. -/
theorem hasEvent_iff_stored (ts : List Transition) (name : String) (_hne : name ≠ "") :
    TransitionSet.hasEvent ts name = true ↔ ∃ t ∈ ts, t.event = some name := by
  unfold TransitionSet.hasEvent
  rw [hasTransition_eq_true]
  constructor
  · rintro ⟨t, hmem, hmatch⟩
    exact ⟨t, hmem, ((matchTransition_eq_true t _).mp hmatch).1 name rfl⟩
  · rintro ⟨t, hmem, hev⟩
    refine ⟨t, hmem, (matchTransition_eq_true t _).mpr ⟨?_, ?_, ?_⟩⟩ <;>
      intro v hv <;> simp_all

/-- Witness for C10 at a one-transition registry. -/
theorem hasEvent_iff_stored_witness :
    ("ignite" : String) ≠ "" ∧
    (TransitionSet.hasEvent [c10Transition] "ignite" = true ↔
      ∃ t ∈ [c10Transition], t.event = some "ignite") :=
  ⟨by decide, hasEvent_iff_stored [c10Transition] "ignite" (by decide)⟩

/-! ### Claims about the transition selector -/

def c3Blocked : List Transition :=
  [{ from_ := "a", to_ := "b", condition := some GuardVal.jsFalse }]

/-- C3: `move(to, from)` raises `StateNotFoundError` exactly when no stored
transition has `from` as its `from` field or none has `to` as its `to` field,
regardless of guards; when both states are referenced but no `(from, to)`
candidate's guard passes, the call is a silent no-op: no error, the history is
unchanged and no payload is produced. -/
theorem transition_state_not_found_iff (ts : List Transition) (h : TransitionHistory)
    (toState fromState : String) (data : Option Data) :
    ((∃ msg, Transitioner.transition ts h toState fromState data = Except.error msg) ↔
      (TransitionSet.hasTransition ts { from_ := some fromState } = false ∨
       TransitionSet.hasTransition ts { to_ := some toState } = false)) ∧
    (TransitionSet.hasTransition ts { from_ := some fromState } = true →
     TransitionSet.hasTransition ts { to_ := some toState } = true →
     findExecutableTransition ts toState fromState = none →
     Transitioner.transition ts h toState fromState data = Except.ok (h, none)) := by
  constructor
  · cases h1 : TransitionSet.hasTransition ts { from_ := some fromState } <;>
      cases h2 : TransitionSet.hasTransition ts { to_ := some toState }
    · simp [Transitioner.transition, h1, h2]
    · simp [Transitioner.transition, h1, h2]
    · simp [Transitioner.transition, h1, h2]
    · cases hf : findExecutableTransition ts toState fromState <;>
        simp [Transitioner.transition, h1, h2, hf]
  · intro h1 h2 hf
    simp [Transitioner.transition, h1, h2, hf]

/-- Witness for C3: both states are referenced and the only candidate's guard
returns `false`, so the call is a silent no-op. -/
theorem transition_state_not_found_iff_witness :
    TransitionSet.hasTransition c3Blocked { from_ := some "a" } = true ∧
    TransitionSet.hasTransition c3Blocked { to_ := some "b" } = true ∧
    findExecutableTransition c3Blocked "b" "a" = none ∧
    Transitioner.transition c3Blocked (TransitionHistory.init "a") "b" "a" none
        = Except.ok (TransitionHistory.init "a", none) :=
  ⟨by decide, by decide, by decide,
    (transition_state_not_found_iff c3Blocked (TransitionHistory.init "a") "b" "a" none).2
      (by decide) (by decide) (by decide)⟩

theorem stateMachine_transition_cases (m : StateMachine) (state : String) (data : Option Data) :
    (∃ msg, m.transition state data = Except.error msg) ∨
    (findExecutableTransition m.transitions state m.getState = none ∧
      m.transition state data = Except.ok m) ∨
    (∃ t, findExecutableTransition m.transitions state m.getState = some t ∧
      m.transition state data = Except.ok { m with
        history := m.history.addRecord { state := t.to_, data := data }
        notified := m.notified ++ [{ data := data, from_ := t.from_, to_ := t.to_ }] }) := by
  unfold StateMachine.transition Transitioner.transition
  by_cases hc : (!TransitionSet.hasTransition m.transitions { from_ := some m.getState } ||
      !TransitionSet.hasTransition m.transitions { to_ := some state }) = true
  · rw [if_pos hc]
    exact Or.inl ⟨_, rfl⟩
  · rw [if_neg hc]
    cases hf : findExecutableTransition m.transitions state m.getState with
    | none => exact Or.inr (Or.inl ⟨rfl, rfl⟩)
    | some t => exact Or.inr (Or.inr ⟨t, rfl, rfl⟩)

/-- C4: when `move` does not raise, the move succeeds — the current state
becomes `to` and exactly one broadcast fires — iff some registered transition
with that `from` (the current state) and `to` has a guard that is absent or
returns a value not strictly equal to `false`. -/
theorem transition_success_iff_guard (m : StateMachine) (toState : String)
    (data : Option Data) (m' : StateMachine)
    (hok : m.transition toState data = Except.ok m') :
    (m'.getState = toState ∧ m'.notified.length = m.notified.length + 1) ↔
      (∃ t ∈ m.transitions, t.from_ = m.getState ∧ t.to_ = toState ∧
        (t.condition = none ∨ ∃ v, t.condition = some v ∧ v ≠ GuardVal.jsFalse)) := by
  rcases stateMachine_transition_cases m toState data with ⟨msg, he⟩ | ⟨hf, hm⟩ | ⟨t, hf, hm⟩
  · rw [he] at hok
    exact absurd hok (by simp)
  · rw [hm] at hok
    injection hok with hh
    subst hh
    constructor
    · rintro ⟨-, hlen⟩
      exact absurd hlen (by omega)
    · rintro ⟨t, hmem, hfr, hto, hguard⟩
      exfalso
      have hsome : (findExecutableTransition m.transitions toState m.getState).isSome = true :=
        (findExecutableTransition_isSome_iff m.transitions toState m.getState).mpr
          ⟨t, hmem, hfr, hto, (isExecutable_eq_true t).mpr hguard⟩
      rw [hf] at hsome
      exact Bool.noConfusion hsome
  · rw [hm] at hok
    injection hok with hh
    subst hh
    obtain ⟨hmem, hfr, hto, hex⟩ :=
      findExecutableTransition_eq_some m.transitions toState m.getState t hf
    constructor
    · intro _
      exact ⟨t, hmem, hfr, hto, (isExecutable_eq_true t).mp hex⟩
    · intro _
      constructor
      · show (m.history.addRecord { state := t.to_, data := data }).getCurrentRecord.state = toState
        rw [getCurrentRecord_addRecord]
        exact hto
      · simp

def c4M : StateMachine :=
  { transitions := [{ from_ := "a", to_ := "b" }],
    history := TransitionHistory.init "a", notified := [] }

def c4Mmoved : StateMachine :=
  { transitions := [{ from_ := "a", to_ := "b" }],
    history := { stack := [{ state := "b" }, { state := "a" }], index := 0 },
    notified := [{ from_ := "a", to_ := "b" }] }

/-- Witness for C4 at a one-transition machine: the move commits and the
equivalence holds at that concrete input. -/
theorem transition_success_iff_guard_witness :
    c4M.transition "b" none = Except.ok c4Mmoved ∧
    ((c4Mmoved.getState = "b" ∧ c4Mmoved.notified.length = c4M.notified.length + 1) ↔
      (∃ t ∈ c4M.transitions, t.from_ = c4M.getState ∧ t.to_ = "b" ∧
        (t.condition = none ∨ ∃ v, t.condition = some v ∧ v ≠ GuardVal.jsFalse))) :=
  ⟨rfl, transition_success_iff_guard c4M "b" none c4Mmoved rfl⟩

/-! ### Claims about undo and the history stack -/

/-- C5: undo is permitted only if a previous record exists and the forward
transition from its state to the current state (first executable candidate) is
marked undoable; when permitted, the cursor moves one step toward older
entries and the broadcast payload is `(data: previous.data, event, from:
current, to: previous.state, undo: true)`; in every other case `undo()` is a
silent no-op. -/
theorem undoTransition_spec (m : StateMachine) :
    (m.history.getPreviousRecord = none → m.undoTransition = m) ∧
    (∀ prev, m.history.getPreviousRecord = some prev →
      findExecutableTransition m.transitions m.getState prev.state = none →
      m.undoTransition = m) ∧
    (∀ prev t, m.history.getPreviousRecord = some prev →
      findExecutableTransition m.transitions m.getState prev.state = some t →
      t.undoable = false →
      m.undoTransition = m) ∧
    (∀ prev t, m.history.getPreviousRecord = some prev →
      findExecutableTransition m.transitions m.getState prev.state = some t →
      t.undoable = true →
      m.undoTransition.transitions = m.transitions ∧
      m.undoTransition.history.stack = m.history.stack ∧
      m.undoTransition.history.index = m.history.index + 1 ∧
      m.undoTransition.notified = m.notified ++
        [{ data := prev.data, event := t.event, from_ := m.getState, to_ := prev.state,
           undo := some true }]) := by
  refine ⟨?_, ?_, ?_, ?_⟩
  · intro hp
    unfold StateMachine.undoTransition Transitioner.undoTransition getTransitionForUndo
    rw [hp]
  · intro prev hp hf
    unfold StateMachine.getState at hf
    unfold StateMachine.undoTransition Transitioner.undoTransition getTransitionForUndo
    simp [hp, hf]
  · intro prev t hp hf hu
    unfold StateMachine.getState at hf
    unfold StateMachine.undoTransition Transitioner.undoTransition getTransitionForUndo
    simp [hp, hf, hu]
  · intro prev t hp hf hu
    obtain ⟨hmem, hfr, hto, hex⟩ :=
      findExecutableTransition_eq_some m.transitions m.getState prev.state t hf
    unfold StateMachine.getState at hf
    have hundo : m.undoTransition = { m with
        history := m.history.rewindHistory
        notified := m.notified ++
          [{ data := prev.data, event := t.event, from_ := t.to_, to_ := t.from_,
             undo := some true }] } := by
      unfold StateMachine.undoTransition Transitioner.undoTransition getTransitionForUndo
      simp [hp, hf, hu]
    rw [hundo]
    refine ⟨rfl, rfl, rewindHistory_index_of_previous m.history prev hp, ?_⟩
    rw [hfr, hto]

def c5T : Transition :=
  { event := some "ignite", from_ := "parked", to_ := "idling", undoable := true }

def c5M : StateMachine :=
  { transitions := [c5T],
    history := { stack := [{ state := "idling", event := some "ignite", data := some "hi" },
                           { state := "parked" }], index := 0 },
    notified := [] }

/-- Witness for C5: a permitted undo on a concrete machine moves the cursor
back and broadcasts the reversed pair with the previous record's data. -/
theorem undoTransition_spec_witness :
    c5M.history.getPreviousRecord = some { state := "parked" } ∧
    findExecutableTransition c5M.transitions c5M.getState "parked" = some c5T ∧
    c5T.undoable = true ∧
    (c5M.undoTransition.transitions = c5M.transitions ∧
     c5M.undoTransition.history.stack = c5M.history.stack ∧
     c5M.undoTransition.history.index = c5M.history.index + 1 ∧
     c5M.undoTransition.notified = c5M.notified ++
       [{ data := none, event := some "ignite", from_ := c5M.getState, to_ := "parked",
          undo := some true }]) :=
  ⟨rfl, rfl, rfl,
    (undoTransition_spec c5M).2.2.2 { state := "parked" } c5T rfl rfl rfl⟩

/-- C6: starting from the seeded history, committing any sequence of records
leaves the stack equal to the most recent records in order, capped at the
limit of 50; in particular more than 50 sequential successful moves leave
exactly 50 records, the oldest entries having been evicted. -/
theorem history_capped (s : String) (rs : List TransitionRecord) :
    ((TransitionHistory.init s).addRecords rs).stack
        = (rs.reverse ++ [({ state := s } : TransitionRecord)]).take historyLimit ∧
    (50 < rs.length → ((TransitionHistory.init s).addRecords rs).stack.length = 50) := by
  obtain ⟨hs, -⟩ := addRecords_stack rs (TransitionHistory.init s) rfl
    (by simp [TransitionHistory.init, historyLimit])
  refine ⟨hs, fun hlen => ?_⟩
  rw [hs, List.length_take]
  simp only [List.length_append, List.length_reverse, List.length_singleton, historyLimit]
  omega

/-- Witness for C6: 51 committed records on top of the seeded one leave
exactly 50. -/
theorem history_capped_witness :
    50 < (List.replicate 51 ({ state := "x" } : TransitionRecord)).length ∧
    ((TransitionHistory.init "s0").addRecords
        (List.replicate 51 { state := "x" })).stack.length = 50 :=
  ⟨by simp, (history_capped "s0" (List.replicate 51 { state := "x" })).2 (by simp)⟩

theorem canRedo_false_of_index_zero (m : StateMachine) (hz : m.history.index = 0) :
    m.canRedo = false := by
  unfold StateMachine.canRedo getTransitionForRedo TransitionHistory.getNextRecord
  simp [hz]

theorem stateMachine_triggerEvent_cases (m : StateMachine) (e : String) (d : Option Data) :
    (∃ msg, m.triggerEvent e d = Except.error msg) ∨
    (m.triggerEvent e d = Except.ok m) ∨
    (∃ t, findExecutableTransitionByEvent m.transitions e m.getState = some t ∧
      m.triggerEvent e d = Except.ok { m with
        history := m.history.addRecord { state := t.to_, event := some e, data := d }
        notified := m.notified ++
          [{ data := d, event := some e, from_ := t.from_, to_ := t.to_ }] }) := by
  unfold StateMachine.triggerEvent Transitioner.triggerEvent
  by_cases hc : (!TransitionSet.hasEvent m.transitions e ||
      !TransitionSet.hasTransition m.transitions { from_ := some m.getState }) = true
  · rw [if_pos hc]
    exact Or.inl ⟨_, rfl⟩
  · rw [if_neg hc]
    cases hf : findExecutableTransitionByEvent m.transitions e m.getState with
    | none => exact Or.inr (Or.inl rfl)
    | some t => exact Or.inr (Or.inr ⟨t, rfl, rfl⟩)

/-- C7: while the cursor is away from the front, a committed move (one that
broadcasts) resets the cursor to 0, rebuilds the stack as the new record on
top of the records from the old cursor onward — discarding the whole redo
branch — and `canRedo()` is false immediately afterwards. -/
theorem new_move_clears_redo (m : StateMachine) (e : String) (d : Option Data)
    (m' : StateMachine) (_hcur : 0 < m.history.index)
    (hok : m.triggerEvent e d = Except.ok m')
    (hmoved : m'.notified.length = m.notified.length + 1) :
    m'.history.index = 0 ∧
    (∃ st, m'.history.stack = ({ state := st, event := some e, data := d }
        :: m.history.stack.drop m.history.index).take historyLimit) ∧
    m'.canRedo = false := by
  rcases stateMachine_triggerEvent_cases m e d with ⟨msg, he⟩ | hnoop | ⟨t, hf, hm⟩
  · rw [he] at hok
    exact absurd hok (by simp)
  · rw [hnoop] at hok
    injection hok with hh
    subst hh
    exact absurd hmoved (by omega)
  · rw [hm] at hok
    injection hok with hh
    subst hh
    refine ⟨rfl, ⟨t.to_, rfl⟩, ?_⟩
    exact canRedo_false_of_index_zero _ rfl

def c7T : Transition :=
  { event := some "ignite", from_ := "parked", to_ := "idling", undoable := true }

def c7M : StateMachine :=
  { transitions := [c7T],
    history := { stack := [{ state := "idling", event := some "ignite" },
                           { state := "parked" }], index := 1 },
    notified := [] }

def c7Mmoved : StateMachine :=
  { transitions := [c7T],
    history := { stack := [{ state := "idling", event := some "ignite" },
                           { state := "parked" }], index := 0 },
    notified := [{ event := some "ignite", from_ := "parked", to_ := "idling" }] }

/-- Witness for C7: a machine sitting one undo away from the front commits a
new ignite move; the cursor resets and redo becomes impossible. -/
theorem new_move_clears_redo_witness :
    0 < c7M.history.index ∧
    c7M.triggerEvent "ignite" none = Except.ok c7Mmoved ∧
    c7Mmoved.notified.length = c7M.notified.length + 1 ∧
    (c7Mmoved.history.index = 0 ∧
     (∃ st, c7Mmoved.history.stack = ({ state := st, event := some "ignite", data := none }
         :: c7M.history.stack.drop c7M.history.index).take historyLimit) ∧
     c7Mmoved.canRedo = false) :=
  ⟨by decide, rfl, rfl,
    new_move_clears_redo c7M "ignite" none c7Mmoved (by decide) rfl rfl⟩

/-! ### The concrete ignite scenario -/

def c2Ignite : Transition :=
  { event := some "ignite", from_ := "parked", to_ := "idling", undoable := true }

/-- The scenario: create at `parked`, register `ignite` with one undoable
transition, then trigger it with data `"hi"`. -/
def c2Chain : Except String StateMachine :=
  Except.bind
    ((StateMachine.create "parked").addEvent "ignite"
      [{ from_ := "parked", to_ := "idling", undoable := true }])
    (fun m1 => m1.triggerEvent "ignite" (some "hi"))

/-- The machine state after the chain: at `idling`, one broadcast so far. -/
def c2M2 : StateMachine :=
  { transitions := [c2Ignite],
    history := { stack := [{ state := "idling", event := some "ignite", data := some "hi" },
                           { state := "parked" }], index := 0 },
    notified := [{ data := some "hi", event := some "ignite",
                   from_ := "parked", to_ := "idling" }] }

/-- C2 counterexample: in the ignite scenario the undo broadcast does NOT
carry the original move's data `"hi"` — its `data` field is the previous
record's data, which is absent (the seeded `parked` record has none). -/
theorem undo_data_counterexample :
    c2Chain = Except.ok c2M2 ∧
    c2M2.undoTransition.getState = "parked" ∧
    c2M2.undoTransition.notified = c2M2.notified ++
      [{ data := none, event := some "ignite", from_ := "idling", to_ := "parked",
         undo := some true }] ∧
    c2M2.undoTransition.notified ≠ c2M2.notified ++
      [{ data := some "hi", event := some "ignite", from_ := "idling", to_ := "parked",
         undo := some true }] :=
  ⟨rfl, rfl, rfl, by decide⟩

/-- C2 (amended): in the ignite scenario, `triggerEvent` moves to `idling`
broadcasting `(event: ignite, from: parked, to: idling, data: "hi")`, and
`undo()` moves back to `parked` broadcasting `(event: ignite, from: idling,
to: parked, undo: true)` whose `data` is the previous record's data — absent
here — not the original move's data. -/
theorem ignite_undo_scenario (m2 : StateMachine) (hok : c2Chain = Except.ok m2) :
    m2.getState = "idling" ∧
    m2.notified = [{ data := some "hi", event := some "ignite",
                     from_ := "parked", to_ := "idling" }] ∧
    m2.undoTransition.getState = "parked" ∧
    m2.undoTransition.notified = m2.notified ++
      [{ data := none, event := some "ignite", from_ := "idling", to_ := "parked",
         undo := some true }] := by
  have h0 : c2Chain = Except.ok c2M2 := rfl
  rw [h0] at hok
  injection hok with hh
  subst hh
  exact ⟨rfl, rfl, rfl, rfl⟩

/-- Witness for C2 (amended) at the computed scenario machine. -/
theorem ignite_undo_scenario_witness :
    c2Chain = Except.ok c2M2 ∧
    (c2M2.getState = "idling" ∧
     c2M2.notified = [{ data := some "hi", event := some "ignite",
                        from_ := "parked", to_ := "idling" }] ∧
     c2M2.undoTransition.getState = "parked" ∧
     c2M2.undoTransition.notified = c2M2.notified ++
       [{ data := none, event := some "ignite", from_ := "idling", to_ := "parked",
          undo := some true }]) :=
  ⟨rfl, ignite_undo_scenario c2M2 rfl⟩

end SwitchHub
